import Mathlib

/-!
Shallow embedding of the generalized rock-paper-scissors engine
(`src/logic.py`) and proofs about its claimed properties.

Python methods that only read state are translated as pure functions of
the object state; methods that mutate state return the updated state;
methods that can raise (`assert`, `IndexError` on list indexing,
`ValueError` on `Result(int)`) return `Except GameError`.
-/

namespace RPS

/-- `class Result(Enum)` with members WIN = 1, TIE = 0, LOSE = -1. -/
inductive Result where
  | WIN
  | TIE
  | LOSE
deriving DecidableEq, Repr

/-- The partial conversion `Result(v)` from an integer to the enum member
with that value: `Result(1)`, `Result(0)`, `Result(-1)` succeed, any
other integer raises `ValueError` (modelled as `none`). -/
def Result.ofInt (v : Int) : Option Result :=
  if v = 1 then some .WIN
  else if v = 0 then some .TIE
  else if v = -1 then some .LOSE
  else none

/-- Errors the Python code can raise: failed `assert` on a selection not in
the set, list indexing out of range, and `Result(v)` on a value outside
\x7b-1, 0, 1\x7d. -/
inductive GameError where
  | invalidSelection (s : String)
  | indexError
  | valueError
deriving DecidableEq, Repr

/-- `class SelectionSet`: the ordered list of selection names and the
relations (payoff) matrix. -/
structure SelectionSet where
  selections : List String
  relations : List (List Int)
deriving DecidableEq, Repr

/-- Row-then-column lookup `relations[i][j]`, `none` when either index is
out of range (Python raises `IndexError`; indices here are the nonnegative
results of `list.index`, so no negative-index wraparound arises). -/
def matrixGet (relations : List (List Int)) (i j : Nat) : Option Int :=
  (relations.get? i).bind (fun row => row.get? j)

/-- `SelectionSet.get_result(self, selection1, selection2)`:
asserts membership of each argument (in order), takes the first index of
each selection, and returns
`Result(relations[index1][index2]), Result(relations[index2][index1])`,
evaluating the first lookup and conversion before the second, as Python
does. The method reads but never writes `self`. -/
def SelectionSet.get_result (ss : SelectionSet) (selection1 selection2 : String) :
    Except GameError (Result × Result) :=
  if selection1 ∈ ss.selections then
    if selection2 ∈ ss.selections then
      match matrixGet ss.relations (ss.selections.indexOf selection1) (ss.selections.indexOf selection2) with
      | none => .error .indexError
      | some v1 =>
        match Result.ofInt v1 with
        | none => .error .valueError
        | some r1 =>
          match matrixGet ss.relations (ss.selections.indexOf selection2) (ss.selections.indexOf selection1) with
          | none => .error .indexError
          | some v2 =>
            match Result.ofInt v2 with
            | none => .error .valueError
            | some r2 => .ok (r1, r2)
    else .error (.invalidSelection selection2)
  else .error (.invalidSelection selection1)

/-- A relations matrix shaped as the spec requires: square with side
`selections.length` and every entry an encoding of an outcome. -/
def SelectionSet.wellFormedRelations (ss : SelectionSet) : Prop :=
  ss.relations.length = ss.selections.length ∧
  ∀ row ∈ ss.relations, row.length = ss.selections.length ∧
    ∀ v ∈ row, (Result.ofInt v).isSome

instance (ss : SelectionSet) : Decidable ss.wellFormedRelations := by
  unfold SelectionSet.wellFormedRelations
  infer_instance

/-- `class Game`: a display name bound to a selection set. -/
structure Game where
  name : String
  selection_set : SelectionSet
deriving DecidableEq, Repr

/-- One entry of a player's private history, as appended by
`Player.observe`. -/
structure PlayerRecord where
  player_move : String
  opponent_move : String
  player_result : Result
  opponent_result : Result
deriving DecidableEq, Repr

/-- The state of a `Player` (the `ABC`): its name and its private history.
The move-producing strategies of the concrete variants draw on external
input or a random source; the match orchestration below is therefore
parameterized by the moves the players return. -/
structure Player where
  name : String
  history : List PlayerRecord
deriving DecidableEq, Repr

/-- `Player.observe`: appends one record made of the four arguments to the
player's history; a plain append, no validation, cannot fail. -/
def Player.observe (p : Player) (player_move opponent_move : String)
    (player_result opponent_result : Result) : Player :=
  { p with history := p.history ++ [⟨player_move, opponent_move, player_result, opponent_result⟩] }

/-- `ComputerPlayer.play_weighted_random`, weight computation: for each row
of the relations matrix, `win_count / (win_count + lose_count)` with the
counts of entries equal to `1` and `-1`, and weight `0` when both counts
are zero. Python computes the quotient in floating point; it is modelled
here as the exact rational. -/
def selections_weights (relations : List (List Int)) : List ℚ :=
  relations.map (fun s_relation =>
    if s_relation.count 1 + s_relation.count (-1) = 0 then 0
    else (s_relation.count 1 : ℚ) / ((s_relation.count 1 + s_relation.count (-1) : ℕ) : ℚ))

/-- Count of winning entries (`1`) in a matrix row (spec's `winCount`). -/
def winCount (row : List Int) : Nat := row.count 1

/-- Count of losing entries (`-1`) in a matrix row (spec's `loseCount`). -/
def loseCount (row : List Int) : Nat := row.count (-1)

/-- One entry of the handler's match history, as appended by
`GameHandler.add_turn_to_history`. -/
structure TurnRecord where
  player1_move : String
  player2_move : String
  player1_result : Result
  player2_result : Result
deriving DecidableEq, Repr

/-- `class GameHandler` (the spec's MatchHandler): one game, two players,
and the handler's own match history. -/
structure GameHandler where
  game : Game
  player1 : Player
  player2 : Player
  history : List TurnRecord
deriving DecidableEq, Repr

/-- `GameHandler.__init__`: stores the game and the players and starts
with an empty history. -/
def GameHandler.init (game : Game) (player1 player2 : Player) : GameHandler :=
  ⟨game, player1, player2, []⟩

/-- `GameHandler.add_turn_to_history`: appends one turn record. -/
def GameHandler.add_turn_to_history (h : GameHandler) (player1_move player2_move : String)
    (player1_result player2_result : Result) : GameHandler :=
  { h with history := h.history ++ [⟨player1_move, player2_move, player1_result, player2_result⟩] }

/-- The per-player tallies built by `get_current_result`:
`\x7bResult.WIN: win, Result.TIE: tie, Result.LOSE: lose\x7d`. -/
structure ResultCounts where
  win : Nat
  tie : Nat
  lose : Nat
deriving DecidableEq, Repr

/-- Incrementing the bucket of one `Result` in a tally dictionary. -/
def ResultCounts.incr (c : ResultCounts) : Result → ResultCounts
  | .WIN => { c with win := c.win + 1 }
  | .TIE => { c with tie := c.tie + 1 }
  | .LOSE => { c with lose := c.lose + 1 }

/-- Sum of a tally's three buckets. -/
def ResultCounts.total (c : ResultCounts) : Nat := c.win + c.tie + c.lose

/-- `GameHandler.get_current_result`: starts both players' tallies at
`\x7bWIN: 0, TIE: 0, LOSE: 0\x7d` and walks the handler history in order,
incrementing player1's bucket for `player1_result` and player2's for
`player2_result` of each turn. The first component is the `"player1"`
entry of the returned dict, the second the `"player2"` entry. -/
def GameHandler.get_current_result (h : GameHandler) : ResultCounts × ResultCounts :=
  h.history.foldl
    (fun acc turn_result => (acc.1.incr turn_result.player1_result, acc.2.incr turn_result.player2_result))
    (⟨0, 0, 0⟩, ⟨0, 0, 0⟩)

/-- A method call to `get_current_result` as (return value, state of the
handler after the call): the method only reads `self.history`, so the
post-state is the unchanged handler. -/
def GameHandler.get_current_result_call (h : GameHandler) :
    (ResultCounts × ResultCounts) × GameHandler :=
  (h.get_current_result, h)

/-- `GameHandler.play_turn`, parameterized by the moves the two players'
`play` calls return (their strategies draw on external input or
randomness): resolves the moves through `get_result`, lets both players
observe the turn, and appends it to the handler history; printing is
external output. An assertion failure inside `get_result` aborts the
turn before any state changes. -/
def GameHandler.play_turn (h : GameHandler) (player1_move player2_move : String) :
    Except GameError GameHandler :=
  match h.game.selection_set.get_result player1_move player2_move with
  | .error e => .error e
  | .ok (player1_result, player2_result) =>
    let h1 := { h with player1 := h.player1.observe player1_move player2_move player1_result player2_result }
    let h2 := { h1 with player2 := h1.player2.observe player2_move player1_move player2_result player1_result }
    .ok (h2.add_turn_to_history player1_move player2_move player1_result player2_result)

/-- Running `play_turn` once per scripted pair of moves, stopping at the
first error. -/
def GameHandler.play_turns (h : GameHandler) : List (String × String) → Except GameError GameHandler
  | [] => .ok h
  | (m1, m2) :: rest =>
    match h.play_turn m1 m2 with
    | .error e => .error e
    | .ok h' => h'.play_turns rest

/-- The loop body of `GameHandler.play`, with explicit fuel standing for
the number of iterations observed: `i_turn` starts at 0, each iteration
plays a turn and increments it, and the loop breaks exactly when
`i_turn == max_num_of_turns` (comparing an integer with `None` is never
true in Python). `.ok none` means the loop was still running when the
fuel ran out; `.ok (some (h, n))` means it broke out after exactly `n`
calls to `play_turn`, leaving the handler in state `h`. -/
def GameHandler.play_aux (moves : Nat → String × String) (max_num_of_turns : Option Int) :
    GameHandler → Nat → Nat → Except GameError (Option (GameHandler × Nat))
  | _, _, 0 => .ok none
  | h, i_turn, fuel + 1 =>
    match h.play_turn (moves i_turn).1 (moves i_turn).2 with
    | .error e => .error e
    | .ok h' =>
      if max_num_of_turns = some ((i_turn + 1 : Nat) : Int) then .ok (some (h', i_turn + 1))
      else GameHandler.play_aux moves max_num_of_turns h' (i_turn + 1) fuel

/-- `GameHandler.play(max_num_of_turns)` observed for `fuel` loop
iterations, with the players' moves scripted by `moves`. -/
def GameHandler.play (h : GameHandler) (moves : Nat → String × String)
    (max_num_of_turns : Option Int) (fuel : Nat) : Except GameError (Option (GameHandler × Nat)) :=
  GameHandler.play_aux moves max_num_of_turns h 0 fuel

/-- Projection of a `play` run to the number of `play_turn` calls it made
before breaking out of the loop. -/
def turnsPlayed (r : Except GameError (Option (GameHandler × Nat))) :
    Except GameError (Option Nat) :=
  r.map (fun o => o.map Prod.snd)

/-- Both moves of every scripted turn are members of the selection set. -/
def movesValid (ss : SelectionSet) (moves : Nat → String × String) : Prop :=
  ∀ n, (moves n).1 ∈ ss.selections ∧ (moves n).2 ∈ ss.selections

/-- A method call to `get_result` as (return value, state of the selection
set after the call): the method only reads `self`, so the post-state is
the unchanged selection set. -/
def SelectionSet.get_result_call (ss : SelectionSet) (selection1 selection2 : String) :
    Except GameError (Result × Result) × SelectionSet :=
  (ss.get_result selection1 selection2, ss)

/-- The selection set built in `src/rock_paper_scissors.py`. -/
def rockPaperScissors : SelectionSet :=
  ⟨["rock", "paper", "scissors"], [[0, -1, 1], [1, 0, -1], [-1, 1, 0]]⟩

/-- The game built in `src/rock_paper_scissors.py`. -/
def gameRPS : Game := ⟨"Rock Paper Scissors", rockPaperScissors⟩

/-- A fresh handler on the rock-paper-scissors game, with the two player
names used in `src/rock_paper_scissors.py`. -/
def handlerRPS : GameHandler := GameHandler.init gameRPS ⟨"afozk95", []⟩ ⟨"random", []⟩

/-- The handler state after the scripted two-turn run
("rock" vs "scissors", then "paper" vs "paper") from `handlerRPS`. -/
def twoTurnHandler : GameHandler :=
  (handlerRPS.play_turns [("rock", "scissors"), ("paper", "paper")]).toOption.getD handlerRPS

/-! ## General lemmas about `get_result` -/

/-- Characterization of the successful runs of `get_result`. -/
theorem get_result_ok_iff (ss : SelectionSet) (a b : String) (r1 r2 : Result) :
    ss.get_result a b = .ok (r1, r2) ↔
      a ∈ ss.selections ∧ b ∈ ss.selections ∧
      ∃ v1 v2,
        matrixGet ss.relations (ss.selections.indexOf a) (ss.selections.indexOf b) = some v1 ∧
        Result.ofInt v1 = some r1 ∧
        matrixGet ss.relations (ss.selections.indexOf b) (ss.selections.indexOf a) = some v2 ∧
        Result.ofInt v2 = some r2 := by
  constructor
  · intro h
    unfold SelectionSet.get_result at h
    split at h
    · split at h
      · refine ⟨by assumption, by assumption, ?_⟩
        split at h
        · exact absurd h (by simp)
        · split at h
          · exact absurd h (by simp)
          · split at h
            · exact absurd h (by simp)
            · split at h
              · exact absurd h (by simp)
              · refine ⟨_, _, by assumption, ?_, by assumption, ?_⟩
                · cases h; assumption
                · cases h; assumption
      · exact absurd h (by simp)
    · exact absurd h (by simp)
  · rintro ⟨ha, hb, v1, v2, hv1, hr1, hv2, hr2⟩
    unfold SelectionSet.get_result
    rw [if_pos ha, if_pos hb]
    simp only [hv1, hr1, hv2, hr2]

/-- On a well-formed matrix, every in-range lookup yields an encodable value. -/
theorem matrixGet_wf (ss : SelectionSet) (hwf : ss.wellFormedRelations)
    (i j : Nat) (hi : i < ss.selections.length) (hj : j < ss.selections.length) :
    ∃ v, matrixGet ss.relations i j = some v ∧ (Result.ofInt v).isSome := by
  obtain ⟨hlen, hrows⟩ := hwf
  have hi' : i < ss.relations.length := by rw [hlen]; exact hi
  have hrow := List.get?_eq_get hi'
  have hmem : ss.relations.get ⟨i, hi'⟩ ∈ ss.relations := List.get_mem _ _ _
  obtain ⟨hrlen, hentries⟩ := hrows _ hmem
  have hj' : j < (ss.relations.get ⟨i, hi'⟩).length := by rw [hrlen]; exact hj
  have hv := List.get?_eq_get hj'
  have hvmem : (ss.relations.get ⟨i, hi'⟩).get ⟨j, hj'⟩ ∈ ss.relations.get ⟨i, hi'⟩ :=
    List.get_mem _ _ _
  refine ⟨(ss.relations.get ⟨i, hi'⟩).get ⟨j, hj'⟩, ?_, hentries _ hvmem⟩
  unfold matrixGet
  rw [hrow]
  simp [hv]

/-- On a well-formed selection set, the lookup for two members succeeds. -/
theorem get_result_ok_of_wf (ss : SelectionSet) (hwf : ss.wellFormedRelations)
    (a b : String) (ha : a ∈ ss.selections) (hb : b ∈ ss.selections) :
    ∃ r1 r2, ss.get_result a b = .ok (r1, r2) := by
  have hia : ss.selections.indexOf a < ss.selections.length := List.indexOf_lt_length.mpr ha
  have hib : ss.selections.indexOf b < ss.selections.length := List.indexOf_lt_length.mpr hb
  obtain ⟨v1, hv1, hr1⟩ := matrixGet_wf ss hwf _ _ hia hib
  obtain ⟨v2, hv2, hr2⟩ := matrixGet_wf ss hwf _ _ hib hia
  obtain ⟨r1, hr1⟩ := Option.isSome_iff_exists.mp hr1
  obtain ⟨r2, hr2⟩ := Option.isSome_iff_exists.mp hr2
  exact ⟨r1, r2, (get_result_ok_iff ss a b r1 r2).mpr ⟨ha, hb, v1, v2, hv1, hr1, hv2, hr2⟩⟩

/-- A first argument outside the set halts `get_result` at the first
assertion. -/
theorem get_result_invalid_first (ss : SelectionSet) (a b : String)
    (ha : a ∉ ss.selections) :
    ss.get_result a b = .error (.invalidSelection a) := by
  unfold SelectionSet.get_result
  rw [if_neg ha]

/-- A second argument outside the set halts `get_result` at the second
assertion. -/
theorem get_result_invalid_second (ss : SelectionSet) (a b : String)
    (ha : a ∈ ss.selections) (hb : b ∉ ss.selections) :
    ss.get_result a b = .error (.invalidSelection b) := by
  unfold SelectionSet.get_result
  rw [if_pos ha, if_neg hb]

/-! ## Claims C1-C4: `SelectionSet.get_result` -/

/-- Claim C1: for every selection set and every pair of member selections,
`get_result(selection1, selection2)` returns the pair
`(Result(relations[i][j]), Result(relations[j][i]))` where `i` and `j` are
the index positions of the two selections, the integers being mapped to
outcomes via 1 ↦ WIN, 0 ↦ TIE, -1 ↦ LOSE (`Result.ofInt`), and the call
leaves the selection set unchanged. -/
theorem claim_C1_get_result_lookup (ss : SelectionSet) (selection1 selection2 : String)
    (v1 v2 : Int) (r1 r2 : Result)
    (h1 : selection1 ∈ ss.selections) (h2 : selection2 ∈ ss.selections)
    (hv1 : matrixGet ss.relations (ss.selections.indexOf selection1)
      (ss.selections.indexOf selection2) = some v1)
    (hr1 : Result.ofInt v1 = some r1)
    (hv2 : matrixGet ss.relations (ss.selections.indexOf selection2)
      (ss.selections.indexOf selection1) = some v2)
    (hr2 : Result.ofInt v2 = some r2) :
    ss.get_result selection1 selection2 = .ok (r1, r2) ∧
    (ss.get_result_call selection1 selection2).2 = ss := by
  exact ⟨(get_result_ok_iff ss selection1 selection2 r1 r2).mpr
    ⟨h1, h2, v1, v2, hv1, hr1, hv2, hr2⟩, rfl⟩

/-- Witness for C1 on the rock-paper-scissors set at ("rock", "scissors"):
`relations[0][2] = 1 ↦ WIN`, `relations[2][0] = -1 ↦ LOSE`. -/
theorem claim_C1_witness :
    rockPaperScissors.get_result "rock" "scissors" = .ok (.WIN, .LOSE) ∧
    (rockPaperScissors.get_result_call "rock" "scissors").2 = rockPaperScissors :=
  claim_C1_get_result_lookup rockPaperScissors "rock" "scissors" 1 (-1) .WIN .LOSE
    (by decide) (by decide) (by decide) (by decide) (by decide) (by decide)

/-- Counterexample to claim C2 as stated: on
`SelectionSet(selections=["a"], relations=[])` both arguments of
`get_result("a", "a")` are members of `selections`, yet the call fails
(with an IndexError from `relations[0]`, not an InvalidSelection). -/
theorem claim_C2_counterexample :
    "a" ∈ (SelectionSet.mk ["a"] []).selections ∧
    (SelectionSet.mk ["a"] []).get_result "a" "a" = .error .indexError := by
  constructor
  · decide
  · rfl

/-- Claim C2 (amended): an argument not in `selections` makes `get_result`
fail with InvalidSelection for that argument, each position checked
independently and in order; and when both arguments are members the call
does not fail provided the relations matrix is well-formed (square of
side `len(selections)` with entries in \x7b-1, 0, 1\x7d) — on a malformed
matrix a membership-passing call can still fail with an index or value
error. -/
theorem claim_C2_invalid_selection (ss : SelectionSet) (s1 s2 : String) :
    (s1 ∉ ss.selections → ss.get_result s1 s2 = .error (.invalidSelection s1)) ∧
    (s1 ∈ ss.selections → s2 ∉ ss.selections →
      ss.get_result s1 s2 = .error (.invalidSelection s2)) ∧
    (ss.wellFormedRelations → s1 ∈ ss.selections → s2 ∈ ss.selections →
      (ss.get_result s1 s2).isOk = true) := by
  refine ⟨get_result_invalid_first ss s1 s2, get_result_invalid_second ss s1 s2, ?_⟩
  intro hwf h1 h2
  obtain ⟨r1, r2, h⟩ := get_result_ok_of_wf ss hwf s1 s2 h1 h2
  rw [h]
  rfl

/-- Witness for C2 on the rock-paper-scissors set: a non-member first
argument fails, a non-member second argument fails, and a member pair
succeeds. -/
theorem claim_C2_witness :
    rockPaperScissors.get_result "lizard" "rock" = .error (.invalidSelection "lizard") ∧
    rockPaperScissors.get_result "rock" "lizard" = .error (.invalidSelection "lizard") ∧
    (rockPaperScissors.get_result "rock" "paper").isOk = true :=
  ⟨(claim_C2_invalid_selection rockPaperScissors "lizard" "rock").1 (by decide),
   (claim_C2_invalid_selection rockPaperScissors "rock" "lizard").2.1 (by decide) (by decide),
   (claim_C2_invalid_selection rockPaperScissors "rock" "paper").2.2 (by decide)
     (by decide) (by decide)⟩

/-- Claim C3: swapping the two arguments of a successful `get_result` call
swaps the two components of the returned outcome pair. -/
theorem claim_C3_swap (ss : SelectionSet) (a b : String) (r1 r2 : Result)
    (h : ss.get_result a b = .ok (r1, r2)) :
    ss.get_result b a = .ok (r2, r1) := by
  obtain ⟨ha, hb, v1, v2, hv1, hr1, hv2, hr2⟩ := (get_result_ok_iff ss a b r1 r2).mp h
  exact (get_result_ok_iff ss b a r2 r1).mpr ⟨hb, ha, v2, v1, hv2, hr2, hv1, hr1⟩

/-- Witness for C3 on the rock-paper-scissors set at ("rock", "scissors"). -/
theorem claim_C3_witness :
    rockPaperScissors.get_result "scissors" "rock" = .ok (.LOSE, .WIN) :=
  claim_C3_swap rockPaperScissors "rock" "scissors" .WIN .LOSE (by rfl)

/-- Claim C4: on a selection set whose diagonal entries `relations[i][i]`
all encode TIE, `get_result(a, a)` returns (TIE, TIE) for every member
selection `a`. -/
theorem claim_C4_self_tie (ss : SelectionSet)
    (hdiag : ∀ i, i < ss.selections.length →
      (matrixGet ss.relations i i).bind Result.ofInt = some .TIE)
    (a : String) (ha : a ∈ ss.selections) :
    ss.get_result a a = .ok (.TIE, .TIE) := by
  have hia : ss.selections.indexOf a < ss.selections.length := List.indexOf_lt_length.mpr ha
  obtain ⟨v, hv, hvt⟩ := Option.bind_eq_some.mp (hdiag _ hia)
  exact (get_result_ok_iff ss a a .TIE .TIE).mpr ⟨ha, ha, v, v, hv, hvt, hv, hvt⟩

/-- Witness for C4 on the rock-paper-scissors set at "paper". -/
theorem claim_C4_witness :
    rockPaperScissors.get_result "paper" "paper" = .ok (.TIE, .TIE) :=
  claim_C4_self_tie rockPaperScissors (by decide) "paper" (by decide)

/-! ## General lemmas about the handler -/

/-- Incrementing a bucket raises the tally's sum by one. -/
theorem ResultCounts.incr_total (c : ResultCounts) (r : Result) :
    (c.incr r).total = c.total + 1 := by
  cases r <;> simp [ResultCounts.incr, ResultCounts.total] <;> omega

/-- Each turn of the tally fold raises both sums by one. -/
theorem foldl_incr_total (l : List TurnRecord) (acc : ResultCounts × ResultCounts) :
    (l.foldl (fun acc turn_result =>
        (acc.1.incr turn_result.player1_result, acc.2.incr turn_result.player2_result)) acc).1.total
      = acc.1.total + l.length ∧
    (l.foldl (fun acc turn_result =>
        (acc.1.incr turn_result.player1_result, acc.2.incr turn_result.player2_result)) acc).2.total
      = acc.2.total + l.length := by
  induction l generalizing acc with
  | nil => simp
  | cons t rest ih =>
    obtain ⟨ih1, ih2⟩ := ih (acc.1.incr t.player1_result, acc.2.incr t.player2_result)
    constructor
    · rw [List.foldl_cons, ih1, ResultCounts.incr_total]
      simp; omega
    · rw [List.foldl_cons, ih2, ResultCounts.incr_total]
      simp; omega

/-- In every handler state, each player's tally buckets sum to the length
of the handler history. -/
theorem get_current_result_total (h : GameHandler) :
    (h.get_current_result).1.total = h.history.length ∧
    (h.get_current_result).2.total = h.history.length := by
  unfold GameHandler.get_current_result
  simpa [ResultCounts.total] using foldl_incr_total h.history (⟨0, 0, 0⟩, ⟨0, 0, 0⟩)

/-- A completed `play_turn` keeps the game and grows the handler history
by exactly one record. -/
theorem play_turn_ok_spec (h : GameHandler) (m1 m2 : String) (h' : GameHandler)
    (hp : h.play_turn m1 m2 = .ok h') :
    h'.game = h.game ∧ h'.history.length = h.history.length + 1 := by
  unfold GameHandler.play_turn at hp
  split at hp
  · exact absurd hp (by simp)
  · cases hp
    simp [GameHandler.add_turn_to_history]

/-- On a well-formed game, a turn whose two moves are members of the
selection set completes. -/
theorem play_turn_ok_of_wf (h : GameHandler) (m1 m2 : String)
    (hwf : h.game.selection_set.wellFormedRelations)
    (h1 : m1 ∈ h.game.selection_set.selections) (h2 : m2 ∈ h.game.selection_set.selections) :
    ∃ h', h.play_turn m1 m2 = .ok h' := by
  obtain ⟨r1, r2, hr⟩ := get_result_ok_of_wf h.game.selection_set hwf m1 m2 h1 h2
  unfold GameHandler.play_turn
  rw [hr]
  exact ⟨_, rfl⟩

/-- A completed scripted run grows the handler history by one record per
scripted turn. -/
theorem play_turns_ok_length (ms : List (String × String)) :
    ∀ h h' : GameHandler, h.play_turns ms = .ok h' →
      h'.history.length = h.history.length + ms.length := by
  induction ms with
  | nil =>
    intro h h' hp
    cases hp
    simp
  | cons m rest ih =>
    intro h h' hp
    unfold GameHandler.play_turns at hp
    split at hp
    · exact absurd hp (by simp)
    · rw [List.length_cons]
      have hstep := play_turn_ok_spec h m.1 m.2 _ (by assumption)
      have := ih _ h' hp
      omega

/-! ## Claims C5-C6: the match loop -/

/-- Claim C5: a fresh handler run for exactly the scripted turns ends with
a history of one record per turn, and in that state (as in every handler
state) each player's WIN + TIE + LOSE tallies from `get_current_result`
sum to the history length, i.e. to the number of completed turns. -/
theorem claim_C5_history_tally (game : Game) (player1 player2 : Player)
    (moves : List (String × String)) (h : GameHandler)
    (hp : (GameHandler.init game player1 player2).play_turns moves = .ok h) :
    h.history.length = moves.length ∧
    (h.get_current_result).1.total = moves.length ∧
    (h.get_current_result).2.total = moves.length := by
  have hlen := play_turns_ok_length moves _ h hp
  simp [GameHandler.init] at hlen
  obtain ⟨h1, h2⟩ := get_current_result_total h
  exact ⟨hlen, by rw [h1, hlen], by rw [h2, hlen]⟩

/-- Witness for C5: the scripted two-turn run on the rock-paper-scissors
handler ends with a history of length 2 and tallies summing to 2 for each
player. -/
theorem claim_C5_witness :
    handlerRPS.play_turns [("rock", "scissors"), ("paper", "paper")] = .ok twoTurnHandler ∧
    twoTurnHandler.history.length = 2 ∧
    (twoTurnHandler.get_current_result).1.total = 2 ∧
    (twoTurnHandler.get_current_result).2.total = 2 :=
  have hp : handlerRPS.play_turns [("rock", "scissors"), ("paper", "paper")]
      = .ok twoTurnHandler := by rfl
  ⟨hp, claim_C5_history_tally gameRPS ⟨"afozk95", []⟩ ⟨"random", []⟩
    [("rock", "scissors"), ("paper", "paper")] twoTurnHandler hp⟩

/-- With `max_num_of_turns = k ≥ 1` and enough fuel, the loop of `play`
breaks out with its turn counter at exactly `k`. -/
theorem play_aux_terminates (g0 : Game) (hwf : g0.selection_set.wellFormedRelations)
    (moves : Nat → String × String) (hm : movesValid g0.selection_set moves) (k : Nat) :
    ∀ fuel i_turn (h : GameHandler), h.game = g0 → i_turn < k → k ≤ i_turn + fuel →
      turnsPlayed (GameHandler.play_aux moves (some (k : Int)) h i_turn fuel) = .ok (some k) := by
  intro fuel
  induction fuel with
  | zero => intro i_turn h _ hik hk; omega
  | succ fuel ih =>
    intro i_turn h hg hik hk
    obtain ⟨hm1, hm2⟩ := hm i_turn
    obtain ⟨h', hp⟩ := play_turn_ok_of_wf h (moves i_turn).1 (moves i_turn).2
      (by rw [hg]; exact hwf) (by rw [hg]; exact hm1) (by rw [hg]; exact hm2)
    have hg' : h'.game = g0 := by rw [(play_turn_ok_spec h _ _ h' hp).1, hg]
    unfold GameHandler.play_aux
    simp only [hp]
    by_cases hk1 : k = i_turn + 1
    · subst hk1
      rw [if_pos rfl]
      rfl
    · rw [if_neg (by simp only [Option.some.injEq, Nat.cast_inj]; exact hk1)]
      exact ih (i_turn + 1) h' hg' (by omega) (by omega)

/-- When `max_num_of_turns` never equals a positive turn counter (it is
`None` or nonpositive), the loop of `play` never breaks out. -/
theorem play_aux_no_break (g0 : Game) (hwf : g0.selection_set.wellFormedRelations)
    (moves : Nat → String × String) (hm : movesValid g0.selection_set moves)
    (mt : Option Int) (hmt : ∀ n : Nat, 1 ≤ n → mt ≠ some (n : Int)) :
    ∀ fuel i_turn (h : GameHandler), h.game = g0 →
      GameHandler.play_aux moves mt h i_turn fuel = .ok none := by
  intro fuel
  induction fuel with
  | zero => intro i_turn h _; rfl
  | succ fuel ih =>
    intro i_turn h hg
    obtain ⟨hm1, hm2⟩ := hm i_turn
    obtain ⟨h', hp⟩ := play_turn_ok_of_wf h (moves i_turn).1 (moves i_turn).2
      (by rw [hg]; exact hwf) (by rw [hg]; exact hm1) (by rw [hg]; exact hm2)
    have hg' : h'.game = g0 := by rw [(play_turn_ok_spec h _ _ h' hp).1, hg]
    unfold GameHandler.play_aux
    simp only [hp]
    rw [if_neg (hmt (i_turn + 1) (by omega))]
    exact ih (i_turn + 1) h' hg'

/-- Counterexample to claim C6 as stated: with `maxTurns = 0` the loop
does not terminate after 0 calls to `play_turn` — the turn counter starts
at 0 but is only compared after being incremented, so it never equals 0;
after 5 completed turns the loop is still running. -/
theorem claim_C6_counterexample :
    handlerRPS.play (fun _ => ("rock", "rock")) (some 0) 5 = .ok none := by rfl

/-- Claim C6 (amended): on a well-formed game with valid scripted moves,
`play(maxTurns)` with a positive `maxTurns` calls `play_turn` exactly
`maxTurns` times and then terminates; with `maxTurns` absent (`None`) or
nonpositive, the loop never terminates on its own. -/
theorem claim_C6_play_loop (h : GameHandler) (moves : Nat → String × String)
    (hwf : h.game.selection_set.wellFormedRelations)
    (hm : movesValid h.game.selection_set moves) :
    (∀ k fuel : Nat, 1 ≤ k → k ≤ fuel →
      turnsPlayed (h.play moves (some (k : Int)) fuel) = .ok (some k)) ∧
    (∀ m : Int, m ≤ 0 → ∀ fuel, h.play moves (some m) fuel = .ok none) ∧
    (∀ fuel, h.play moves none fuel = .ok none) := by
  refine ⟨?_, ?_, ?_⟩
  · intro k fuel hk hfuel
    exact play_aux_terminates h.game hwf moves hm k fuel 0 h rfl (by omega) (by omega)
  · intro m hm0 fuel
    refine play_aux_no_break h.game hwf moves hm (some m) ?_ fuel 0 h rfl
    intro n hn heq
    rw [Option.some.injEq] at heq
    omega
  · intro fuel
    exact play_aux_no_break h.game hwf moves hm none (fun n _ heq => by cases heq) fuel 0 h rfl

/-- Witness for C6: on the rock-paper-scissors handler with both players
scripted to "rock", `maxTurns = 2` breaks the loop after exactly 2 turns,
while `maxTurns = -1` and `maxTurns = None` leave it running after 3. -/
theorem claim_C6_witness :
    turnsPlayed (handlerRPS.play (fun _ => ("rock", "rock")) (some 2) 2) = .ok (some 2) ∧
    handlerRPS.play (fun _ => ("rock", "rock")) (some (-1)) 3 = .ok none ∧
    handlerRPS.play (fun _ => ("rock", "rock")) none 3 = .ok none := by
  have hwf : handlerRPS.game.selection_set.wellFormedRelations := by decide
  have hm : movesValid handlerRPS.game.selection_set (fun _ => ("rock", "rock")) := by
    intro n
    show "rock" ∈ rockPaperScissors.selections ∧ "rock" ∈ rockPaperScissors.selections
    decide
  obtain ⟨t1, t2, t3⟩ := claim_C6_play_loop handlerRPS (fun _ => ("rock", "rock")) hwf hm
  exact ⟨t1 2 2 (by omega) (by omega), t2 (-1) (by omega) 3, t3 3⟩

/-! ## Claim C7: the weighted strategy -/

/-- Claim C7: the weighted strategy's weight for selection `i` is
`winCount(relations[i]) / (winCount(relations[i]) + loseCount(relations[i]))`,
with weight 0 when both counts are zero; in particular a row of all `-1`
entries gets weight exactly 0. Python computes the quotient in floating
point; it is modelled as the exact rational, and the all-lose weight is
exactly 0 in either arithmetic. -/
theorem claim_C7_weights (relations : List (List Int)) (i : Nat) (row : List Int)
    (hrow : relations.get? i = some row) :
    (selections_weights relations).get? i =
      some (if winCount row + loseCount row = 0 then (0 : ℚ)
        else (winCount row : ℚ) / ((winCount row + loseCount row : ℕ) : ℚ)) ∧
    ((∀ v ∈ row, v = -1) → (selections_weights relations).get? i = some 0) := by
  have h1 : (selections_weights relations).get? i =
      some (if winCount row + loseCount row = 0 then (0 : ℚ)
        else (winCount row : ℚ) / ((winCount row + loseCount row : ℕ) : ℚ)) := by
    unfold selections_weights
    rw [List.get?_eq_getElem?, List.getElem?_map, ← List.get?_eq_getElem?, hrow]
    rfl
  refine ⟨h1, ?_⟩
  intro hall
  have hwin : winCount row = 0 := by
    unfold winCount
    rw [List.count_eq_zero]
    intro hmem
    exact absurd (hall 1 hmem) (by decide)
  rw [h1, hwin]
  split <;> simp

/-- Witness for C7: in the matrix `[[-1, -1], [1, 0]]` the first row
always loses, so its weight is exactly 0. -/
theorem claim_C7_witness :
    (selections_weights [[-1, -1], [1, 0]]).get? 0 = some 0 :=
  (claim_C7_weights [[-1, -1], [1, 0]] 0 [-1, -1] rfl).2 (by decide)

/-! ## Claims C8-C10: observe and the tally -/

/-- Claim C8: `observe` appends exactly one record holding its four
arguments to the player's history, never fails (it is a total function),
and changes nothing else: the name and every previously appended record
are unchanged. -/
theorem claim_C8_observe (p : Player) (player_move opponent_move : String)
    (player_result opponent_result : Result) :
    (p.observe player_move opponent_move player_result opponent_result).history
      = p.history ++ [⟨player_move, opponent_move, player_result, opponent_result⟩] ∧
    (p.observe player_move opponent_move player_result opponent_result).name = p.name ∧
    (p.observe player_move opponent_move player_result opponent_result).history.take
      p.history.length = p.history :=
  ⟨rfl, rfl, by simp [Player.observe]⟩

/-- Claim C9: a `get_current_result` call leaves the handler (in
particular its history) unchanged, and two calls without an intervening
`play_turn` return identical mappings. -/
theorem claim_C9_idempotent (h : GameHandler) :
    (h.get_current_result_call).2 = h ∧
    ((h.get_current_result_call).2.get_current_result_call).1 = (h.get_current_result_call).1 ∧
    (h.get_current_result_call).2.history = h.history :=
  ⟨rfl, rfl, rfl⟩

/-- Claim C10: on a freshly constructed handler the tallies of both
players are `\x7bWIN: 0, TIE: 0, LOSE: 0\x7d`. -/
theorem claim_C10_fresh_zero (game : Game) (player1 player2 : Player) :
    (GameHandler.init game player1 player2).get_current_result = (⟨0, 0, 0⟩, ⟨0, 0, 0⟩) := rfl

end RPS
